import Mathlib

/-!
Shallow embedding of the core of the Excel/CSV data remapper
(`src/excel-remapper.js` and `src/advanced-remapper.js`), together with
theorems settling the behavioural claims about it.

File decoding and encoding is out of scope (the engine and the validator
operate purely on in-memory row data): the already-parsed template headers,
input rows and parse-error list are parameters of the embedded functions,
exactly the data the JavaScript code extracts from the files before the
processing loops run.
-/

/-- One parsed input record: an association list from source column name to
raw cell text, mirroring the row objects produced by the CSV/Excel parsing
collaborators.  A column that is absent from the list models a property that
is `undefined` (or `null`) on the JavaScript row object. -/
def Row : Type := List (String × String)

/-- Property lookup `row[columnName]` on a parsed row object. -/
def rowGet : Row → String → Option String
  | [], _ => none
  | (k, v) :: rest, col => if k = col then some v else rowGet rest col

/-- A raw output cell value.  Mapping rules may return strings or numbers;
the header row, the `"ERROR"` sentinel and the `""` placeholder for unmapped
columns are all strings. -/
inductive CellValue where
  | str : String → CellValue
  | num : Int → CellValue
deriving DecidableEq

/-- A transformation rule `(dataRow, rowIndex) => value`.  A rule that throws
is modelled as returning `Except.error ()` (the thrown object itself is never
inspected by the engine). -/
def Rule : Type := Row → Nat → Except Unit CellValue

/-- The field-mapping registry `configObj.fieldMappings`: an association list
from template header to registered rule.  `fieldMappings[header]` is truthy
exactly when a rule is registered for `header`. -/
def FieldMappings : Type := List (String × Rule)

/-- Registry lookup `fieldMappings[templateHeader]`. -/
def lookupMapping : FieldMappings → String → Option Rule
  | [], _ => none
  | (field, rule) :: rest, h => if field = h then some rule else lookupMapping rest h

/-- One CSV parse anomaly as reported by the parsing collaborator
(`parsedData.errors` entries: a type, a message and a 0-based row). -/
structure ParseError where
  type : String
  message : String
  row : Nat
deriving DecidableEq

/-- The de-duplication key of a parse anomaly, the template literal
`type:message:row` built from the original (unshifted) row number
(excel-remapper.js line 112). -/
def errorKey (e : ParseError) : String :=
  e.type ++ ":" ++ e.message ++ ":" ++ toString e.row

/-- The de-duplication loop over `parsedData.errors` (excel-remapper.js
lines 106-127): keep the first occurrence of each key, shifting the stored
row number by one. -/
def dedupAux : List ParseError → List String → List ParseError
  | [], _ => []
  | e :: rest, seen =>
    if errorKey e ∈ seen then dedupAux rest seen
    else { e with row := e.row + 1 } :: dedupAux rest (errorKey e :: seen)

/-- De-duplicated parse errors stored into `stats.parseErrors`. -/
def dedupParseErrors (errors : List ParseError) : List ParseError :=
  dedupAux errors []

/-- The `stats` object threaded through `remapData`
(excel-remapper.js lines 86-91, 167, 170-172, 190, 198).
`validationWarnings` is an optional property: absent unless set. -/
structure Stats where
  totalRows : Nat
  errorRows : Nat
  warnings : Nat
  parseErrors : List ParseError
  validationWarnings : Option Nat
deriving DecidableEq

/-- One output cell (excel-remapper.js lines 180-194): apply the registered
rule inside try/catch, producing `"ERROR"` when it throws; columns with no
registered rule receive the empty string. -/
def mapCell (fm : FieldMappings) (dataRow : Row) (rowIndex : Nat)
    (templateHeader : String) : CellValue :=
  match lookupMapping fm templateHeader with
  | some rule =>
    match rule dataRow rowIndex with
    | .ok v => v
    | .error _ => .str "ERROR"
  | none => .str ""

/-- Whether the cell for `templateHeader` lands in the catch branch for this
row (rule registered and throwing). -/
def cellFails (fm : FieldMappings) (dataRow : Row) (rowIndex : Nat)
    (templateHeader : String) : Bool :=
  match lookupMapping fm templateHeader with
  | some rule =>
    match rule dataRow rowIndex with
    | .ok _ => false
    | .error _ => true
  | none => false

/-- The `resultRow` built by the inner forEach over `templateHeaders`
(excel-remapper.js lines 176-195): one cell per template header, in template
order. -/
def remapRowCells (ths : List String) (fm : FieldMappings) (dataRow : Row)
    (rowIndex : Nat) : List CellValue :=
  ths.map (mapCell fm dataRow rowIndex)

/-- The row loop of `remapData` (excel-remapper.js lines 175-202), threading
the rows pushed onto `resultData`, the `errorRows` counter (incremented once
per row whose `rowHasError` flag was set) and the per-cell warning count
(incremented once in every catch branch). -/
def processRows (ths : List String) (fm : FieldMappings) :
    List Row → Nat → List (List CellValue) × Nat × Nat
  | [], _ => ([], 0, 0)
  | dataRow :: rest, rowIndex =>
    let resultRow := remapRowCells ths fm dataRow rowIndex
    let rowHasError := ths.any (cellFails fm dataRow rowIndex)
    let rowWarnings := ths.countP (cellFails fm dataRow rowIndex)
    let r := processRows ths fm rest (rowIndex + 1)
    (resultRow :: r.1, (if rowHasError then 1 else 0) + r.2.1, rowWarnings + r.2.2)

/-- The console warning emitted for a template header with no registered
mapping (excel-remapper.js line 75). -/
def unmappedMsg (header : String) : String :=
  "Warning: No mapping defined for template header \"" ++ header ++ "\""

/-- The value returned by `remapData` (excel-remapper.js lines 262-267),
plus the full `resultData` grid (the grid the output workbook is built from;
`data` is the grid without its header row) and the once-per-run unmapped
header warnings printed by lines 73-77. -/
structure RemapResult where
  headers : List String
  data : List (List CellValue)
  resultData : List (List CellValue)
  stats : Stats
  unmappedWarnings : List String

/-- The in-memory core of `remapData` (excel-remapper.js lines 68-77,
86-91, 106-131, 163-202, 262-268).  The parsing collaborators supply the
template headers, the parsed input rows and the raw parse-error list;
`configValidationWarnings` models the optional `configObj.validationWarnings`
property (stored into the stats only when truthy, line 170-172). -/
def remapData (ths : List String) (inputRows : List Row) (fm : FieldMappings)
    (rawParseErrors : List ParseError) (configValidationWarnings : Option Nat) :
    RemapResult :=
  let parseErrors := dedupParseErrors rawParseErrors
  let r := processRows ths fm inputRows 0
  let resultData := (ths.map CellValue.str) :: r.1
  { headers := ths
    data := resultData.drop 1
    resultData := resultData
    unmappedWarnings :=
      (ths.filter fun h => (lookupMapping fm h).isNone).map unmappedMsg
    stats :=
      { totalRows := inputRows.length
        errorRows := r.2.1
        warnings := parseErrors.length + r.2.2
        parseErrors := parseErrors
        validationWarnings :=
          match configValidationWarnings with
          | some n => if 0 < n then some n else none
          | none => none } }

/-- One duplicate entry pushed by the validator scan
(advanced-remapper.js lines 53-56). -/
structure DupEntry where
  value : String
  rows : List Nat
deriving DecidableEq

/-- The per-column duplicate record pushed into `validationResults.duplicates`
(advanced-remapper.js lines 67-70). -/
structure ColumnDuplicates where
  column : String
  duplicateValues : List DupEntry
deriving DecidableEq

/-- The object returned by `validateUniqueIds`
(advanced-remapper.js lines 25-29). -/
structure ValidationResult where
  isValid : Bool
  duplicates : List ColumnDuplicates
  validationMessages : List String
deriving DecidableEq

/-- The `idColumns` argument of `validateUniqueIds`: either a bare column
name or a list of column names (advanced-remapper.js line 22 normalizes a
non-array argument to a one-element array). -/
inductive IdColumns where
  | single : String → IdColumns
  | list : List String → IdColumns

/-- `Array.isArray(idColumns) ? idColumns : [idColumns]`
(advanced-remapper.js line 22). -/
def columnsToCheck : IdColumns → List String
  | .single c => [c]
  | .list cs => cs

/-- The JavaScript truthiness-and-length test
`config.idColumns && config.idColumns.length > 0`
(advanced-remapper.js line 174): an empty string is falsy and an array is
always truthy, so in both cases the test reduces to `length > 0`. -/
def idLength : IdColumns → Nat
  | .single s => s.length
  | .list l => l.length

/-- The skip test at the head of the scan (advanced-remapper.js lines 41-49):
`undefined`, `null` and `''` values are skipped; any other value is
stringified (already a string in this model). -/
def keyOf (row : Row) (col : String) : Option String :=
  match rowGet row col with
  | none => none
  | some v => if v = "" then none else some v

/-- Lookup in the `seenValues` object (property access `seenValues[valueStr]`;
the stored row arrays are never empty, so truthiness is presence). -/
def lookupSeen : List (String × List Nat) → String → Option (List Nat)
  | [], _ => none
  | (k, l) :: rest, v => if k = v then some l else lookupSeen rest v

/-- Property assignment on the `seenValues` object. -/
def setSeen : List (String × List Nat) → String → List Nat → List (String × List Nat)
  | [], k, l => [(k, l)]
  | (k0, l0) :: rest, k, l =>
    if k0 = k then (k, l) :: rest else (k0, l0) :: setSeen rest k l

/-- The row scan of `validateUniqueIds` for one column
(advanced-remapper.js lines 40-63): on a repeated value, push a duplicate
entry holding all row numbers seen so far plus the current one, and extend
the seen list; on a first-seen value, record its 1-based row number. -/
def scanRows (col : String) :
    List Row → Nat → List (String × List Nat) → List DupEntry → List DupEntry
  | [], _, _, dups => dups
  | row :: rest, index, seen, dups =>
    match keyOf row col with
    | none => scanRows col rest (index + 1) seen dups
    | some valueStr =>
      match lookupSeen seen valueStr with
      | some prev =>
        scanRows col rest (index + 1)
          (setSeen seen valueStr (prev ++ [index + 1]))
          (dups ++ [⟨valueStr, prev ++ [index + 1]⟩])
      | none =>
        scanRows col rest (index + 1) (setSeen seen valueStr [index + 1]) dups

/-- The message pushed for each duplicate entry
(advanced-remapper.js line 74). -/
def messageFor (columnName : String) (dup : DupEntry) : String :=
  "WARNING: Value \"" ++ dup.value ++ "\" in column \"" ++ columnName ++
    "\" appears multiple times in rows: " ++
    String.intercalate ", " (dup.rows.map toString)

/-- The per-column body of the forEach over `columnsToCheck`
(advanced-remapper.js lines 32-81): when the scan found duplicates, mark the
result invalid, push the column record and one message per duplicate
entry. -/
def checkColumn (inputRows : List Row) (acc : ValidationResult)
    (columnName : String) : ValidationResult :=
  let duplicates := scanRows columnName inputRows 0 [] []
  if duplicates.isEmpty then acc
  else
    { isValid := false
      duplicates := acc.duplicates ++ [⟨columnName, duplicates⟩]
      validationMessages :=
        acc.validationMessages ++ duplicates.map (messageFor columnName) }

/-- `validateUniqueIds` (advanced-remapper.js lines 18-84). -/
def validateUniqueIds (inputRows : List Row) (idColumns : IdColumns) :
    ValidationResult :=
  (columnsToCheck idColumns).foldl (checkColumn inputRows) ⟨true, [], []⟩

/-- The `validation` property of the object returned by `remapWithConfig`.
When no id columns are configured the code uses the literal
`\x7b isValid: true, validationMessages: [] \x7d`
(advanced-remapper.js line 171), which has no `duplicates` property at all;
the optional field models that absence. -/
structure ValidationObject where
  isValid : Bool
  duplicates : Option (List ColumnDuplicates)
  validationMessages : List String
deriving DecidableEq

/-- The object returned by `remapWithConfig`
(advanced-remapper.js lines 196-199): the spread of the `remapData` result
plus the `validation` property. -/
structure FullResult where
  headers : List String
  data : List (List CellValue)
  resultData : List (List CellValue)
  stats : Stats
  unmappedWarnings : List String
  validation : ValidationObject

/-- The in-memory core of `remapWithConfig`
(advanced-remapper.js lines 157-200).  `validationRows` are the rows of the
parse performed by `remapWithConfig` itself for validation (lines 164-169),
`inputRows` and `rawParseErrors` the parse consumed by `remapData`;
the processed configuration passed to `remapData` never carries a
`validationWarnings` property.  After remapping, the validation message
count is added to the warning total when non-zero (lines 190-193). -/
def remapWithConfig (ths : List String) (validationRows inputRows : List Row)
    (rawParseErrors : List ParseError) (fm : FieldMappings)
    (idColumns : IdColumns) : FullResult :=
  let validationResults : ValidationObject :=
    if 0 < idLength idColumns then
      let r := validateUniqueIds validationRows idColumns
      ⟨r.isValid, some r.duplicates, r.validationMessages⟩
    else ⟨true, none, []⟩
  let remapResult := remapData ths inputRows fm rawParseErrors none
  let stats :=
    if 0 < validationResults.validationMessages.length then
      { remapResult.stats with
          validationWarnings := some validationResults.validationMessages.length
          warnings :=
            remapResult.stats.warnings +
              validationResults.validationMessages.length }
    else remapResult.stats
  { headers := remapResult.headers
    data := remapResult.data
    resultData := remapResult.resultData
    stats := stats
    unmappedWarnings := remapResult.unmappedWarnings
    validation := validationResults }

/-! ## Helper lemmas about the row-processing loop -/

theorem processRows_grid_length (ths : List String) (fm : FieldMappings) :
    ∀ (rows : List Row) (k : Nat), (processRows ths fm rows k).1.length = rows.length
  | [], _ => rfl
  | _ :: rest, k => by
    simp [processRows, processRows_grid_length ths fm rest (k + 1)]

theorem processRows_grid_get (ths : List String) (fm : FieldMappings) :
    ∀ (rows : List Row) (k i : Nat) (hi : i < rows.length),
      (processRows ths fm rows k).1.get? i =
        some (remapRowCells ths fm (rows.get ⟨i, hi⟩) (k + i))
  | [], _, i, hi => by simp at hi
  | r :: rest, k, 0, _ => by simp [processRows]
  | r :: rest, k, i + 1, hi => by
    have ih := processRows_grid_get ths fm rest (k + 1) i (Nat.lt_of_succ_lt_succ hi)
    simp only [processRows, List.get?_cons_succ, List.get]
    rw [ih]
    congr 2
    omega

theorem processRows_grid_mem_length (ths : List String) (fm : FieldMappings) :
    ∀ (rows : List Row) (k : Nat) (r : List CellValue),
      r ∈ (processRows ths fm rows k).1 → r.length = ths.length
  | [], _, r, hr => by simp [processRows] at hr
  | x :: rest, k, r, hr => by
    simp only [processRows, List.mem_cons] at hr
    rcases hr with h | h
    · subst h; simp [remapRowCells]
    · exact processRows_grid_mem_length ths fm rest (k + 1) r h

theorem processRows_errorRows (ths : List String) (fm : FieldMappings) :
    ∀ (rows : List Row) (k : Nat),
      (processRows ths fm rows k).2.1 =
        (List.enumFrom k rows).countP (fun p => ths.any (cellFails fm p.2 p.1))
  | [], _ => rfl
  | r :: rest, k => by
    have ih := processRows_errorRows ths fm rest (k + 1)
    simp only [processRows, List.enumFrom, List.countP_cons, ih]
    cases ths.any (cellFails fm r k)
    · simp
    · simp [Nat.add_comm]

theorem processRows_warnings (ths : List String) (fm : FieldMappings) :
    ∀ (rows : List Row) (k : Nat),
      (processRows ths fm rows k).2.2 =
        ((List.enumFrom k rows).map (fun p => ths.countP (cellFails fm p.2 p.1))).sum
  | [], _ => rfl
  | r :: rest, k => by
    have ih := processRows_warnings ths fm rest (k + 1)
    simp only [processRows, List.enumFrom, List.map_cons, List.sum_cons, ih]

/-- C2: for every template-headers list, input-row list (of any length,
including zero) and field-mapping registry, the output grid has exactly
`N + 1` rows, row 0 is the template headers, every row has exactly
`templateHeaders.length` cells in template order, and row `i + 1` is the
remapping of input row `i` (rows appear in input order). -/
theorem remapData_grid_shape (ths : List String) (iRows : List Row)
    (fm : FieldMappings) (pe : List ParseError) (vw : Option Nat) :
    (remapData ths iRows fm pe vw).resultData.length = iRows.length + 1
    ∧ (remapData ths iRows fm pe vw).resultData.get? 0 = some (ths.map CellValue.str)
    ∧ (∀ r ∈ (remapData ths iRows fm pe vw).resultData, r.length = ths.length)
    ∧ ∀ (i : Nat) (hi : i < iRows.length),
        (remapData ths iRows fm pe vw).resultData.get? (i + 1) =
          some (remapRowCells ths fm (iRows.get ⟨i, hi⟩) i) := by
  refine ⟨?_, rfl, ?_, ?_⟩
  · simp [remapData, processRows_grid_length]
  · intro r hr
    simp only [remapData, List.mem_cons] at hr
    rcases hr with h | h
    · subst h; simp
    · exact processRows_grid_mem_length ths fm iRows 0 r h
  · intro i hi
    have h := processRows_grid_get ths fm iRows 0 i hi
    simp only [remapData, List.get?_cons_succ]
    rw [h]
    simp

theorem remapData_grid_shape_witness :
    (remapData ["H"] [[("a", "1")]] [] [] none).resultData.length = 2
    ∧ (remapData ["H"] [[("a", "1")]] [] [] none).resultData.get? 1 =
        some (remapRowCells ["H"] [] [("a", "1")] 0) :=
  ⟨(remapData_grid_shape ["H"] [[("a", "1")]] [] [] none).1,
   (remapData_grid_shape ["H"] [[("a", "1")]] [] [] none).2.2.2 0 (by decide)⟩

/-! ## Helper lemmas about the uniqueness scan -/

theorem scanRows_all_skipped (col : String) :
    ∀ (rows : List Row), (∀ x ∈ rows, keyOf x col = none) →
      ∀ (idx : Nat) (seen : List (String × List Nat)) (dups : List DupEntry),
        scanRows col rows idx seen dups = dups
  | [], _, _, _, _ => rfl
  | x :: rest, hall, idx, seen, dups => by
    have hx : keyOf x col = none := hall x (List.mem_cons_self x rest)
    have hrest : ∀ y ∈ rest, keyOf y col = none :=
      fun y hy => hall y (List.mem_cons_of_mem x hy)
    simp only [scanRows, hx]
    exact scanRows_all_skipped col rest hrest (idx + 1) seen dups

theorem scanRows_append_skipped (col : String) (r : Row)
    (hr : keyOf r col = none) :
    ∀ (rows : List Row) (idx : Nat) (seen : List (String × List Nat))
      (dups : List DupEntry),
      scanRows col (rows ++ [r]) idx seen dups = scanRows col rows idx seen dups
  | [], idx, seen, dups => by simp [scanRows, hr]
  | x :: rest, idx, seen, dups => by
    cases hx : keyOf x col with
    | none =>
      simp only [List.cons_append, scanRows, hx]
      exact scanRows_append_skipped col r hr rest (idx + 1) seen dups
    | some v =>
      cases hs : lookupSeen seen v with
      | none =>
        simp only [List.cons_append, scanRows, hx, hs]
        exact scanRows_append_skipped col r hr rest (idx + 1) _ _
      | some prev =>
        simp only [List.cons_append, scanRows, hx, hs]
        exact scanRows_append_skipped col r hr rest (idx + 1) _ _

/-- C5: a row whose value in the key column is absent (`undefined`/`null`)
or the empty string contributes nothing to the validator: appending such a
row leaves the whole `ValidationResult` unchanged, and when every row is
skipped (even if many rows share an empty value) the result is valid with no
duplicates and no messages. -/
theorem validateUniqueIds_ignores_empty (rows : List Row) (col : String)
    (r : Row) (hr : keyOf r col = none) :
    validateUniqueIds (rows ++ [r]) (.list [col]) =
      validateUniqueIds rows (.list [col])
    ∧ ((∀ x ∈ rows, keyOf x col = none) →
        validateUniqueIds rows (.list [col]) = ⟨true, [], []⟩) := by
  constructor
  · simp [validateUniqueIds, columnsToCheck, checkColumn,
      scanRows_append_skipped col r hr rows 0 [] []]
  · intro hall
    simp [validateUniqueIds, columnsToCheck, checkColumn,
      scanRows_all_skipped col rows hall 0 [] []]

theorem validateUniqueIds_ignores_empty_witness :
    validateUniqueIds (([[("id", "")], []] : List Row) ++ ([[("id", "")]] : List Row))
        (.list ["id"]) =
      validateUniqueIds ([[("id", "")], []] : List Row) (.list ["id"])
    ∧ validateUniqueIds ([[("id", "")], []] : List Row) (.list ["id"]) =
        ⟨true, [], []⟩ :=
  ⟨(validateUniqueIds_ignores_empty ([[("id", "")], []] : List Row) "id"
      ([("id", "")] : Row) (by decide)).1,
   (validateUniqueIds_ignores_empty ([[("id", "")], []] : List Row) "id"
      ([("id", "")] : Row) (by decide)).2 (by decide)⟩

/-- The per-column fold of `validateUniqueIds` keeps `isValid` equivalent to
emptiness of the accumulated duplicates list. -/
theorem checkColumn_foldl_invariant (rows : List Row) :
    ∀ (cols : List String) (acc : ValidationResult),
      (acc.isValid = true ↔ acc.duplicates = []) →
      ((cols.foldl (checkColumn rows) acc).isValid = true ↔
        (cols.foldl (checkColumn rows) acc).duplicates = [])
  | [], acc, h => h
  | c :: rest, acc, h => by
    simp only [List.foldl_cons]
    apply checkColumn_foldl_invariant rows rest
    unfold checkColumn
    by_cases hd : scanRows c rows 0 [] [] = []
    · simpa [hd] using h
    · simp [hd]

/-- C4: for every row list and every non-empty collection of key columns,
the result of `validateUniqueIds` is invalid exactly when its duplicates
list is non-empty. -/
theorem validateUniqueIds_isValid_iff_duplicates (rows : List Row)
    (idc : IdColumns) (h : columnsToCheck idc ≠ []) :
    ((validateUniqueIds rows idc).isValid = false ↔
      (validateUniqueIds rows idc).duplicates ≠ []) := by
  have hinv : (validateUniqueIds rows idc).isValid = true ↔
      (validateUniqueIds rows idc).duplicates = [] :=
    checkColumn_foldl_invariant rows (columnsToCheck idc) ⟨true, [], []⟩ (by simp)
  constructor
  · intro hfalse hdup
    rw [hinv.2 hdup] at hfalse
    exact Bool.noConfusion hfalse
  · intro hdup
    cases hb : (validateUniqueIds rows idc).isValid
    · rfl
    · exact absurd (hinv.1 hb) hdup

theorem validateUniqueIds_isValid_iff_duplicates_witness :
    ((validateUniqueIds [[("id", "A")], [("id", "A")]] (.list ["id"])).isValid = false ↔
      (validateUniqueIds [[("id", "A")], [("id", "A")]] (.list ["id"])).duplicates ≠ []) :=
  validateUniqueIds_isValid_iff_duplicates [[("id", "A")], [("id", "A")]]
    (.list ["id"]) (by simp [columnsToCheck])

/-- C10: passing a bare column name as `idColumns` yields exactly the same
`ValidationResult` as passing the one-element list of that name: the public
interface silently normalizes a single column to a singleton list. -/
theorem validateUniqueIds_string_normalization (rows : List Row) (c : String) :
    validateUniqueIds rows (.single c) = validateUniqueIds rows (.list [c]) := rfl

theorem mapCell_of_error (fm : FieldMappings) (row : Row) (i : Nat) (c : String)
    (rule : Rule) (hrule : lookupMapping fm c = some rule)
    (hfail : rule row i = Except.error ()) :
    mapCell fm row i c = CellValue.str "ERROR" := by
  simp only [mapCell, hrule, hfail]

theorem mapCell_of_none (fm : FieldMappings) (row : Row) (i : Nat) (c : String)
    (hnone : lookupMapping fm c = none) :
    mapCell fm row i c = CellValue.str "" := by
  simp only [mapCell, hnone]

/-- C1: when the rule registered for template column `c` throws on input row
`i`, the output grid cell at row `i + 1`, column position `j` (any position
holding header `c`) is the sentinel string `"ERROR"`; `stats.errorRows`
counts each input row with at least one failing cell exactly once;
`stats.warnings` counts one warning per failing cell on top of the
de-duplicated parse errors; and no failure aborts the batch: the grid still
holds every input row. -/
theorem remapData_rule_failure (ths : List String) (iRows : List Row)
    (fm : FieldMappings) (pe : List ParseError) (vw : Option Nat)
    (i j : Nat) (c : String) (rule : Rule)
    (hi : i < iRows.length) (hj : j < ths.length)
    (hc : ths.get ⟨j, hj⟩ = c)
    (hrule : lookupMapping fm c = some rule)
    (hfail : rule (iRows.get ⟨i, hi⟩) i = Except.error ()) :
    ((remapData ths iRows fm pe vw).resultData.get? (i + 1)).bind
        (fun r => r.get? j) = some (CellValue.str "ERROR")
    ∧ (remapData ths iRows fm pe vw).stats.errorRows =
        iRows.enum.countP (fun p => ths.any (cellFails fm p.2 p.1))
    ∧ (remapData ths iRows fm pe vw).stats.warnings =
        (dedupParseErrors pe).length +
          (iRows.enum.map (fun p => ths.countP (cellFails fm p.2 p.1))).sum
    ∧ (remapData ths iRows fm pe vw).resultData.length = iRows.length + 1 := by
  refine ⟨?_, ?_, ?_, ?_⟩
  · have hrow := processRows_grid_get ths fm iRows 0 i hi
    simp only [remapData, List.get?_cons_succ]
    rw [hrow, Nat.zero_add]
    show (ths.map (mapCell fm (iRows.get ⟨i, hi⟩) i)).get? j =
      some (CellValue.str "ERROR")
    rw [List.get?_map, List.get?_eq_get hj]
    show some (mapCell fm (iRows.get ⟨i, hi⟩) i (ths.get ⟨j, hj⟩)) =
      some (CellValue.str "ERROR")
    rw [hc, mapCell_of_error fm (iRows.get ⟨i, hi⟩) i c rule hrule hfail]
  · simp only [remapData]
    rw [processRows_errorRows ths fm iRows 0]
    rfl
  · simp only [remapData]
    rw [processRows_warnings ths fm iRows 0]
    rfl
  · simp [remapData, processRows_grid_length]

theorem remapData_rule_failure_witness :
    ((remapData ["H"] [[("a", "1")]]
        [("H", fun _ _ => Except.error ())] [] none).resultData.get? 1).bind
        (fun r => r.get? 0) = some (CellValue.str "ERROR")
    ∧ (remapData ["H"] [[("a", "1")]]
        [("H", fun _ _ => Except.error ())] [] none).stats.errorRows = 1
    ∧ (remapData ["H"] [[("a", "1")]]
        [("H", fun _ _ => Except.error ())] [] none).stats.warnings = 1
    ∧ (remapData ["H"] [[("a", "1")]]
        [("H", fun _ _ => Except.error ())] [] none).resultData.length = 2 := by
  have h := remapData_rule_failure ["H"] [[("a", "1")]]
    [("H", fun _ _ => Except.error ())] [] none 0 0 "H"
    (fun _ _ => Except.error ()) (by decide) (by decide) rfl rfl rfl
  exact ⟨h.1, h.2.1.trans (by rfl), h.2.2.1.trans (by rfl), h.2.2.2⟩

/-- Building the unmapped-header warning string is injective: two distinct
headers never produce the same console message. -/
theorem unmappedMsg_inj : Function.Injective unmappedMsg := by
  intro a b hab
  have hd := congrArg String.data hab
  simp only [unmappedMsg, String.data_append] at hd
  exact String.ext (List.append_cancel_left (List.append_cancel_right hd))

/-- The unmapped-header warning for `h` occurs in the emitted warning list
once per occurrence of `h` among the template headers with no registered
mapping. -/
theorem count_unmapped_eq_count (fm : FieldMappings) (h : String)
    (hnone : lookupMapping fm h = none) :
    ∀ ths : List String,
      ((ths.filter fun x => (lookupMapping fm x).isNone).map unmappedMsg).count
        (unmappedMsg h) = ths.count h
  | [] => rfl
  | t :: rest => by
    have ih := count_unmapped_eq_count fm h hnone rest
    have hmsg : ∀ a b : String, (unmappedMsg a == unmappedMsg b) = true ↔ a = b := by
      intro a b
      simp only [beq_iff_eq]
      exact ⟨fun hc => unmappedMsg_inj hc, fun hc => by rw [hc]⟩
    by_cases ht : t = h
    · simp [List.filter_cons, hnone, List.count_cons, ih, ht]
    · by_cases hp : (lookupMapping fm t).isNone = true
      · simp [List.filter_cons, hp, List.count_cons, ih, hmsg, ht]
      · simp [List.filter_cons, hp, List.count_cons, ih, ht]

/-- C8 counterexample: a run whose template headers hold the same unmapped
header twice reports that header twice — once per occurrence in the template
headers — not exactly once per run as the claim states. -/
theorem remapData_unmapped_once_cex :
    (remapData ["B", "B"] [[("a", "1")]] [] [] none).unmappedWarnings =
      [unmappedMsg "B", unmappedMsg "B"]
    ∧ (remapData ["B", "B"] [[("a", "1")]] [] [] none).unmappedWarnings.count
        (unmappedMsg "B") = 2 := by
  exact ⟨rfl, by decide⟩

/-- C8 (amended): a template header with no registered rule yields an
empty-string cell at each of its positions in every output row, and the
header is reported as unmapped once per occurrence of the header in the
template-headers list — independent of the number of input rows, hence
exactly once per run when the template headers are distinct (a console
warning emitted before the row loop; a warning, not an error). -/
theorem remapData_unmapped_per_occurrence (ths : List String) (iRows : List Row)
    (fm : FieldMappings) (pe : List ParseError) (vw : Option Nat)
    (i j : Nat) (h : String)
    (hj : j < ths.length) (hh : ths.get ⟨j, hj⟩ = h)
    (hnone : lookupMapping fm h = none)
    (hi : i < iRows.length) :
    ((remapData ths iRows fm pe vw).resultData.get? (i + 1)).bind
        (fun r => r.get? j) = some (CellValue.str "")
    ∧ (remapData ths iRows fm pe vw).unmappedWarnings.count (unmappedMsg h) =
        ths.count h := by
  constructor
  · have hrow := processRows_grid_get ths fm iRows 0 i hi
    simp only [remapData, List.get?_cons_succ]
    rw [hrow, Nat.zero_add]
    show (ths.map (mapCell fm (iRows.get ⟨i, hi⟩) i)).get? j =
      some (CellValue.str "")
    rw [List.get?_map, List.get?_eq_get hj]
    show some (mapCell fm (iRows.get ⟨i, hi⟩) i (ths.get ⟨j, hj⟩)) =
      some (CellValue.str "")
    rw [hh, mapCell_of_none fm (iRows.get ⟨i, hi⟩) i h hnone]
  · exact count_unmapped_eq_count fm h hnone ths

theorem remapData_unmapped_per_occurrence_witness :
    ((remapData ["A", "B"] [[("a", "1")], [("a", "2")]]
        [("A", fun _ _ => Except.ok (CellValue.str "x"))] [] none).resultData.get? 1).bind
        (fun r => r.get? 1) = some (CellValue.str "")
    ∧ (remapData ["A", "B"] [[("a", "1")], [("a", "2")]]
        [("A", fun _ _ => Except.ok (CellValue.str "x"))] [] none).unmappedWarnings.count
        (unmappedMsg "B") = 1 := by
  have hw := remapData_unmapped_per_occurrence ["A", "B"] [[("a", "1")], [("a", "2")]]
    [("A", fun _ _ => Except.ok (CellValue.str "x"))] [] none 0 1 "B"
    (by decide) rfl rfl (by decide)
  exact ⟨hw.1, hw.2.trans (by decide)⟩

/-! ## Reference description of one column scan -/

/-- The 1-based row numbers (offset by the start index `k`) of the rows of a
prefix whose key-column value is `v`: the reference description of what the
scan's seen-values object associates to `v` after processing that prefix. -/
def occRowsFrom (col v : String) : List Row → Nat → List Nat
  | [], _ => []
  | r :: rest, k =>
    if keyOf r col = some v then (k + 1) :: occRowsFrom col v rest (k + 1)
    else occRowsFrom col v rest (k + 1)

/-- Reference description of the duplicate entries produced by one column
scan, starting after an already-processed prefix `pre`: one entry per
occurrence of a non-empty value that already occurred in an earlier row,
whose row list holds the 1-based row numbers of all occurrences so far,
the current one included. -/
def dupsSpecFrom (col : String) : List Row → List Row → List DupEntry
  | _, [] => []
  | pre, r :: rest =>
    match keyOf r col with
    | none => dupsSpecFrom col (pre ++ [r]) rest
    | some v =>
      if occRowsFrom col v pre 0 = [] then dupsSpecFrom col (pre ++ [r]) rest
      else ⟨v, occRowsFrom col v pre 0 ++ [pre.length + 1]⟩ ::
        dupsSpecFrom col (pre ++ [r]) rest

theorem occRowsFrom_append_hit (col v : String) (r : Row)
    (hy : keyOf r col = some v) :
    ∀ (pre : List Row) (k : Nat),
      occRowsFrom col v (pre ++ [r]) k =
        occRowsFrom col v pre k ++ [k + pre.length + 1]
  | [], k => by simp [occRowsFrom, hy]
  | p :: rest, k => by
    have ih := occRowsFrom_append_hit col v r hy rest (k + 1)
    have ha : k + 1 + rest.length + 1 = k + (rest.length + 1) + 1 := by omega
    rw [ha] at ih
    by_cases h : keyOf p col = some v
    · simp only [List.cons_append, occRowsFrom, if_pos h, List.length_cons]
      exact (congrArg (fun t => (k + 1) :: t) ih).trans (by simp)
    · simp only [List.cons_append, occRowsFrom, if_neg h, List.length_cons]
      exact ih

theorem occRowsFrom_append_miss (col v : String) (r : Row)
    (hy : ¬ keyOf r col = some v) :
    ∀ (pre : List Row) (k : Nat),
      occRowsFrom col v (pre ++ [r]) k = occRowsFrom col v pre k
  | [], k => by simp [occRowsFrom, hy]
  | p :: rest, k => by
    have ih := occRowsFrom_append_miss col v r hy rest (k + 1)
    by_cases h : keyOf p col = some v
    · simp only [List.cons_append, occRowsFrom, if_pos h]
      exact congrArg (fun t => (k + 1) :: t) ih
    · simp only [List.cons_append, occRowsFrom, if_neg h]
      exact ih

theorem occRows_snoc_hit (col v : String) (r : Row) (pre : List Row)
    (hy : keyOf r col = some v) :
    occRowsFrom col v (pre ++ [r]) 0 =
      occRowsFrom col v pre 0 ++ [pre.length + 1] := by
  have h := occRowsFrom_append_hit col v r hy pre 0
  simpa using h

theorem lookupSeen_setSeen (k v : String) (l : List Nat) :
    ∀ (seen : List (String × List Nat)),
      lookupSeen (setSeen seen k l) v =
        if k = v then some l else lookupSeen seen v
  | [] => by by_cases h : k = v <;> simp [setSeen, lookupSeen, h]
  | (k0, l0) :: rest => by
    have ih := lookupSeen_setSeen k v l rest
    by_cases h0 : k0 = k
    · subst h0
      by_cases h : k0 = v <;> simp [setSeen, lookupSeen, h]
    · by_cases h1 : k0 = v
      · subst h1
        have h2 : ¬ k = k0 := fun hkv => h0 hkv.symm
        simp [setSeen, lookupSeen, h0, h2]
      · simp [setSeen, lookupSeen, h0, h1, ih]

/-- The scan of one column, started behind an already-processed prefix whose
seen-values object satisfies the reference invariant, appends exactly the
reference duplicate entries. -/
theorem scanRows_eq_dupsSpec (col : String) :
    ∀ (rows pre : List Row) (seen : List (String × List Nat))
      (dups : List DupEntry),
      (∀ v, lookupSeen seen v =
        (if occRowsFrom col v pre 0 = [] then none
         else some (occRowsFrom col v pre 0))) →
      scanRows col rows pre.length seen dups = dups ++ dupsSpecFrom col pre rows
  | [], pre, seen, dups, hinv => by simp [scanRows, dupsSpecFrom]
  | r :: rest, pre, seen, dups, hinv => by
    have hlen : (pre ++ [r]).length = pre.length + 1 := by simp
    cases hk : keyOf r col with
    | none =>
      have hinv2 : ∀ v, lookupSeen seen v =
          (if occRowsFrom col v (pre ++ [r]) 0 = [] then none
           else some (occRowsFrom col v (pre ++ [r]) 0)) := by
        intro v
        rw [occRowsFrom_append_miss col v r (by simp [hk]) pre 0]
        exact hinv v
      have ih := scanRows_eq_dupsSpec col rest (pre ++ [r]) seen dups hinv2
      rw [hlen] at ih
      simp only [scanRows, hk, ih, dupsSpecFrom]
    | some v =>
      by_cases ho : occRowsFrom col v pre 0 = []
      · have hseen : lookupSeen seen v = none := by rw [hinv v, if_pos ho]
        have hinv2 : ∀ w, lookupSeen (setSeen seen v [pre.length + 1]) w =
            (if occRowsFrom col w (pre ++ [r]) 0 = [] then none
             else some (occRowsFrom col w (pre ++ [r]) 0)) := by
          intro w
          rw [lookupSeen_setSeen v w [pre.length + 1] seen]
          by_cases hw : v = w
          · subst hw
            rw [occRows_snoc_hit col v r pre hk, ho]
            simp
          · rw [if_neg hw, occRowsFrom_append_miss col w r
              (fun hc => hw (Option.some.inj (hk.symm.trans hc))) pre 0]
            exact hinv w
        have ih := scanRows_eq_dupsSpec col rest (pre ++ [r])
          (setSeen seen v [pre.length + 1]) dups hinv2
        rw [hlen] at ih
        simp only [scanRows, hk, hseen, ih, dupsSpecFrom, if_pos ho]
      · have hseen : lookupSeen seen v = some (occRowsFrom col v pre 0) := by
          rw [hinv v, if_neg ho]
        have hinv2 : ∀ w, lookupSeen (setSeen seen v
            (occRowsFrom col v pre 0 ++ [pre.length + 1])) w =
            (if occRowsFrom col w (pre ++ [r]) 0 = [] then none
             else some (occRowsFrom col w (pre ++ [r]) 0)) := by
          intro w
          rw [lookupSeen_setSeen]
          by_cases hw : v = w
          · subst hw
            rw [occRows_snoc_hit col v r pre hk]
            rw [if_pos rfl, if_neg (by simp)]
          · rw [if_neg hw, occRowsFrom_append_miss col w r
              (fun hc => hw (Option.some.inj (hk.symm.trans hc))) pre 0]
            exact hinv w
        have ih := scanRows_eq_dupsSpec col rest (pre ++ [r])
          (setSeen seen v (occRowsFrom col v pre 0 ++ [pre.length + 1]))
          (dups ++ [⟨v, occRowsFrom col v pre 0 ++ [pre.length + 1]⟩]) hinv2
        rw [hlen] at ih
        simp only [scanRows, hk, hseen, ih, dupsSpecFrom, if_neg ho]
        simp

/-- The full scan of one column produces exactly the reference duplicate
entries. -/
theorem scanRows_spec (col : String) (rows : List Row) :
    scanRows col rows 0 [] [] = dupsSpecFrom col [] rows := by
  have h := scanRows_eq_dupsSpec col rows [] [] []
    (fun v => by simp [lookupSeen, occRowsFrom])
  simpa using h

/-- C3 counterexample: for a value occurring three times the validator
records two duplicate entries for the same value (one per repeated
occurrence, the first with rows 1-2, the second with rows 1-2-3) and two
messages, not exactly one entry and one message per distinct value as the
claim states. -/
theorem validateUniqueIds_one_entry_per_value_cex :
    (validateUniqueIds ([[("id", "A")], [("id", "A")], [("id", "A")]] : List Row)
        (.list ["id"])).duplicates =
      [⟨"id", [⟨"A", [1, 2]⟩, ⟨"A", [1, 2, 3]⟩]⟩]
    ∧ ((validateUniqueIds ([[("id", "A")], [("id", "A")], [("id", "A")]] : List Row)
        (.list ["id"])).validationMessages).length = 2 := by
  exact ⟨rfl, rfl⟩

/-- C3 (amended): the validator scans rows in order tracking the first-seen
1-based row numbers of each distinct non-empty stringified value, and for
each repeated occurrence (second and later) of a value it records one
duplicate entry for that value whose row list holds the row numbers of all
of its occurrences so far (the current one included), and emits exactly one
validation message per duplicate entry — so one entry and one message per
repeated occurrence, not per distinct value. -/
theorem validateUniqueIds_entries_per_occurrence (rows : List Row)
    (col : String) :
    (validateUniqueIds rows (.list [col])).duplicates =
      (if dupsSpecFrom col [] rows = [] then []
       else [⟨col, dupsSpecFrom col [] rows⟩])
    ∧ (validateUniqueIds rows (.list [col])).validationMessages =
      (dupsSpecFrom col [] rows).map (messageFor col) := by
  have hs := scanRows_spec col rows
  by_cases h : dupsSpecFrom col [] rows = []
  · constructor <;>
      simp [validateUniqueIds, columnsToCheck, checkColumn, hs, h]
  · constructor <;>
      simp [validateUniqueIds, columnsToCheck, checkColumn, hs, h]

/-- For a single checked column the emitted messages are exactly one per
duplicate entry found by the scan. -/
theorem validateUniqueIds_single_messages (rows : List Row) (col : String) :
    (validateUniqueIds rows (.list [col])).validationMessages =
      (scanRows col rows 0 [] []).map (messageFor col) := by
  by_cases h : scanRows col rows 0 [] [] = []
  · simp [validateUniqueIds, columnsToCheck, checkColumn, h]
  · simp [validateUniqueIds, columnsToCheck, checkColumn, h]

/-- C6 counterexample: the message produced for a duplicated value carries a
`WARNING: ` prefix, so it is not exactly the string the claim specifies. -/
theorem validateUniqueIds_message_prefix_cex :
    (validateUniqueIds ([[("id", "X")], [("id", "X")]] : List Row)
        (.list ["id"])).validationMessages =
      ["WARNING: Value \"X\" in column \"id\" appears multiple times in rows: 1, 2"]
    ∧ "WARNING: Value \"X\" in column \"id\" appears multiple times in rows: 1, 2" ≠
        "Value \"X\" in column \"id\" appears multiple times in rows: 1, 2" := by
  exact ⟨rfl, by decide⟩

/-- C6 (amended): every validation message produced for a duplicated value
is exactly the string `WARNING: Value "<value>" in column "<column>"
appears multiple times in rows: <row numbers joined by comma-space>` for
one of the duplicate entries found by the scan of that column, with no
other text before or after. -/
theorem validateUniqueIds_message_format (rows : List Row) (col m : String)
    (hm : m ∈ (validateUniqueIds rows (.list [col])).validationMessages) :
    ∃ e ∈ scanRows col rows 0 [] [],
      m = "WARNING: Value \"" ++ e.value ++ "\" in column \"" ++ col ++
        "\" appears multiple times in rows: " ++
        String.intercalate ", " (e.rows.map toString) := by
  rw [validateUniqueIds_single_messages rows col] at hm
  rcases List.mem_map.mp hm with ⟨e, he, hme⟩
  exact ⟨e, he, by rw [← hme]; rfl⟩

theorem validateUniqueIds_message_format_witness :
    ∃ e ∈ scanRows "id" ([[("id", "X")], [("id", "X")]] : List Row) 0 [] [],
      "WARNING: Value \"X\" in column \"id\" appears multiple times in rows: 1, 2" =
        "WARNING: Value \"" ++ e.value ++ "\" in column \"" ++ "id" ++
          "\" appears multiple times in rows: " ++
          String.intercalate ", " (e.rows.map toString) :=
  validateUniqueIds_message_format
    ([[("id", "X")], [("id", "X")]] : List Row) "id"
    "WARNING: Value \"X\" in column \"id\" appears multiple times in rows: 1, 2"
    (by decide)

/-- C7: the final warning total of a configured run is exactly the number of
de-duplicated parse-format warnings, plus one warning per failing cell, plus
one warning per validation message, each counted once with no double
counting across the three categories. -/
theorem remapWithConfig_total_warnings (ths : List String)
    (vRows iRows : List Row) (pe : List ParseError) (fm : FieldMappings)
    (idc : IdColumns) :
    (remapWithConfig ths vRows iRows pe fm idc).stats.warnings =
      (dedupParseErrors pe).length +
        (iRows.enum.map (fun p => ths.countP (cellFails fm p.2 p.1))).sum +
        (remapWithConfig ths vRows iRows pe fm idc).validation.validationMessages.length := by
  have hbase : (remapData ths iRows fm pe none).stats.warnings =
      (dedupParseErrors pe).length +
        (iRows.enum.map (fun p => ths.countP (cellFails fm p.2 p.1))).sum := by
    simp only [remapData]
    rw [processRows_warnings ths fm iRows 0]
    rfl
  unfold remapWithConfig
  by_cases hids : 0 < idLength idc
  · simp only [if_pos hids]
    by_cases hmsg : 0 < (validateUniqueIds vRows idc).validationMessages.length
    · simp only [if_pos hmsg]
      rw [hbase]
    · have h0 : (validateUniqueIds vRows idc).validationMessages.length = 0 := by
        omega
      simp only [if_neg hmsg]
      rw [hbase, h0]
      omega
  · simp only [if_neg hids]
    simp only [List.length_nil, Nat.lt_irrefl, if_false]
    rw [hbase]
    omega

/-- C9 counterexample: with no id columns configured, the `validation`
property of the result of `remapWithConfig` is the two-field object with
`isValid` and `validationMessages` only — it has no `duplicates` list, so
it is not a complete `ValidationResult`. -/
theorem remapWithConfig_missing_duplicates_cex :
    (remapWithConfig ["H"] [] [] [] [] (.list [])).validation =
      ⟨true, none, []⟩
    ∧ (remapWithConfig ["H"] [] [] [] [] (.list [])).validation.duplicates =
      none := by
  exact ⟨rfl, rfl⟩

/-- C9 (amended): the result of `remapWithConfig` carries `headers` equal to
the template headers, `data` equal to the output grid without its header row
(the grid has `N + 1` rows), the run statistics, and a `validation` object
that always has `isValid` and `validationMessages`; it contains a
`duplicates` list (and is then the complete result of `validateUniqueIds`)
exactly when id columns are configured and non-empty, and is the literal
`isValid: true, validationMessages: []` object without a `duplicates`
property otherwise. -/
theorem remapWithConfig_result_shape (ths : List String)
    (vRows iRows : List Row) (pe : List ParseError) (fm : FieldMappings)
    (idc : IdColumns) :
    (remapWithConfig ths vRows iRows pe fm idc).headers = ths
    ∧ (remapWithConfig ths vRows iRows pe fm idc).data =
        (remapWithConfig ths vRows iRows pe fm idc).resultData.drop 1
    ∧ (remapWithConfig ths vRows iRows pe fm idc).resultData.length =
        iRows.length + 1
    ∧ (remapWithConfig ths vRows iRows pe fm idc).stats.totalRows =
        iRows.length
    ∧ (remapWithConfig ths vRows iRows pe fm idc).validation =
        (if 0 < idLength idc then
          ⟨(validateUniqueIds vRows idc).isValid,
            some (validateUniqueIds vRows idc).duplicates,
            (validateUniqueIds vRows idc).validationMessages⟩
         else ⟨true, none, []⟩) := by
  have hlen : (remapData ths iRows fm pe none).resultData.length =
      iRows.length + 1 := by
    simp [remapData, processRows_grid_length]
  unfold remapWithConfig
  by_cases hids : 0 < idLength idc
  · simp only [if_pos hids]
    by_cases hmsg : 0 < (validateUniqueIds vRows idc).validationMessages.length
    · simp only [if_pos hmsg]
      refine ⟨rfl, rfl, hlen, rfl, ?_⟩
      trivial
    · simp only [if_neg hmsg]
      refine ⟨rfl, rfl, hlen, rfl, ?_⟩
      trivial
  · simp only [if_neg hids]
    simp only [List.length_nil, Nat.lt_irrefl, if_false]
    refine ⟨rfl, rfl, hlen, rfl, ?_⟩
    trivial
